import Mathlib

/-! Verification of the `team` module of a Slack Web API client binding.
The module's two endpoint functions (`access_logs` for `team.accessLogs`,
`info` for `team.info`) build a parameter mapping from optional arguments,
send the method over a transport collaborator, and decode the JSON response
envelope into typed records.  The response schemas (`LoginInfo`,
`AccessLogsResponse`, `IconInfo`, `TeamInfo`, `InfoResponse`) come from the
source; the parent module's shared pieces (`Pagination`, the error taxonomy,
`parse_slack_response`, `SlackWebRequestSender`) are not part of the source
excerpt and are modelled from the spec. -/

namespace Slack

/-- JSON values, the wire format of API response bodies. -/
inductive Json where
  | null : Json
  | bool (b : Bool) : Json
  | num (n : Nat) : Json
  | str (s : String) : Json
  | arr (elems : List Json) : Json
  | obj (fields : List (String × Json)) : Json

/-- Looks up a field by name in a JSON object's field list. -/
def lookupField (k : String) : List (String × Json) → Option Json
  | [] => none
  | p :: rest => if p.1 == k then some p.2 else lookupField k rest

/-- Finds a named field of a JSON object (`none` on non-objects). -/
def Json.find (j : Json) (k : String) : Option Json :=
  match j with
  | .obj fields => lookupField k fields
  | _ => none

/-- Decodes a required string field, as the `RustcDecodable` derive does:
missing or mistyped fields are decode failures naming the field. -/
def getStr (j : Json) (k : String) : Except String String :=
  match j.find k with
  | some (.str s) => .ok s
  | _ => .error k

/-- Decodes a required `u32` field; the value must be a number below `2 ^ 32`. -/
def getU32 (j : Json) (k : String) : Except String Nat :=
  match j.find k with
  | some (.num n) => if n < 4294967296 then .ok n else .error k
  | _ => .error k

/-- Decodes a required boolean field. -/
def getBool (j : Json) (k : String) : Except String Bool :=
  match j.find k with
  | some (.bool b) => .ok b
  | _ => .error k

/-- Extracts a required sub-object field for nested decoding. -/
def getField (j : Json) (k : String) : Except String Json :=
  match j.find k with
  | some v => .ok v
  | none => .error k

/-- One login record of a `team.accessLogs` response (struct `LoginInfo`). -/
structure LoginInfo where
  user_id : String
  username : String
  date_first : Nat
  date_last : Nat
  count : Nat
  ip : String
  user_agent : String
  isp : String
  country : String
  region : String
deriving DecidableEq

/-- Decoder for `LoginInfo`, mirroring the `RustcDecodable` derive: every
field is required, read by name, in declaration order. -/
def decodeLoginInfo (j : Json) : Except String LoginInfo := do
  let user_id ← getStr j "user_id"
  let username ← getStr j "username"
  let date_first ← getU32 j "date_first"
  let date_last ← getU32 j "date_last"
  let count ← getU32 j "count"
  let ip ← getStr j "ip"
  let user_agent ← getStr j "user_agent"
  let isp ← getStr j "isp"
  let country ← getStr j "country"
  let region ← getStr j "region"
  return ⟨user_id, username, date_first, date_last, count, ip, user_agent, isp, country, region⟩

/-- Modelled from the spec: pagination metadata (`count`/`total`/`page`/`pages`
integers) defined in the parent module, absent from the source excerpt. -/
structure Pagination where
  count : Nat
  total : Nat
  page : Nat
  pages : Nat
deriving DecidableEq

/-- Decoder for `Pagination`; all four integer fields are required. -/
def decodePagination (j : Json) : Except String Pagination := do
  let count ← getU32 j "count"
  let total ← getU32 j "total"
  let page ← getU32 j "page"
  let pages ← getU32 j "pages"
  return ⟨count, total, page, pages⟩

/-- Response payload of `team.accessLogs` (struct `AccessLogsResponse`). -/
structure AccessLogsResponse where
  logins : List LoginInfo
  paging : Pagination
deriving DecidableEq

/-- Decoder for `AccessLogsResponse`: `logins` must be an array, decoded
element by element in order; `paging` is decoded as a nested record. -/
def decodeAccessLogsResponse (j : Json) : Except String AccessLogsResponse := do
  let loginsJson ←
    match j.find "logins" with
    | some (.arr l) => Except.ok l
    | _ => Except.error "logins"
  let logins ← loginsJson.mapM decodeLoginInfo
  let pagingJson ← getField j "paging"
  let paging ← decodePagination pagingJson
  return ⟨logins, paging⟩

/-- Icon URL set of a team (struct `IconInfo`). -/
structure IconInfo where
  image_34 : String
  image_44 : String
  image_68 : String
  image_88 : String
  image_102 : String
  image_132 : String
  image_default : Bool
deriving DecidableEq

/-- Decoder for `IconInfo`. -/
def decodeIconInfo (j : Json) : Except String IconInfo := do
  let image_34 ← getStr j "image_34"
  let image_44 ← getStr j "image_44"
  let image_68 ← getStr j "image_68"
  let image_88 ← getStr j "image_88"
  let image_102 ← getStr j "image_102"
  let image_132 ← getStr j "image_132"
  let image_default ← getBool j "image_default"
  return ⟨image_34, image_44, image_68, image_88, image_102, image_132, image_default⟩

/-- Team record of a `team.info` response (struct `TeamInfo`). -/
structure TeamInfo where
  id : String
  name : String
  domain : String
  email_domain : String
  icon : IconInfo
deriving DecidableEq

/-- Decoder for `TeamInfo`; the nested `icon` object is decoded recursively. -/
def decodeTeamInfo (j : Json) : Except String TeamInfo := do
  let id ← getStr j "id"
  let name ← getStr j "name"
  let domain ← getStr j "domain"
  let email_domain ← getStr j "email_domain"
  let iconJson ← getField j "icon"
  let icon ← decodeIconInfo iconJson
  return ⟨id, name, domain, email_domain, icon⟩

/-- Response payload of `team.info` (struct `InfoResponse`). -/
structure InfoResponse where
  team : TeamInfo
deriving DecidableEq

/-- Decoder for `InfoResponse`. -/
def decodeInfoResponse (j : Json) : Except String InfoResponse := do
  let teamJson ← getField j "team"
  let team ← decodeTeamInfo teamJson
  return ⟨team⟩

/-- All required fields of the `LoginInfo` schema are present. -/
def loginFieldsPresent (j : Json) : Prop :=
  j.find "user_id" ≠ none ∧ j.find "username" ≠ none ∧
  j.find "date_first" ≠ none ∧ j.find "date_last" ≠ none ∧
  j.find "count" ≠ none ∧ j.find "ip" ≠ none ∧
  j.find "user_agent" ≠ none ∧ j.find "isp" ≠ none ∧
  j.find "country" ≠ none ∧ j.find "region" ≠ none

/-- All required fields of the `Pagination` schema are present. -/
def paginationFieldsPresent (j : Json) : Prop :=
  j.find "count" ≠ none ∧ j.find "total" ≠ none ∧
  j.find "page" ≠ none ∧ j.find "pages" ≠ none

/-- All required fields of the `IconInfo` schema are present. -/
def iconFieldsPresent (j : Json) : Prop :=
  j.find "image_34" ≠ none ∧ j.find "image_44" ≠ none ∧
  j.find "image_68" ≠ none ∧ j.find "image_88" ≠ none ∧
  j.find "image_102" ≠ none ∧ j.find "image_132" ≠ none ∧
  j.find "image_default" ≠ none

/-- All required fields of the `TeamInfo` schema are present, recursively
including the nested icon object's. -/
def teamFieldsPresent (j : Json) : Prop :=
  j.find "id" ≠ none ∧ j.find "name" ≠ none ∧ j.find "domain" ≠ none ∧
  j.find "email_domain" ≠ none ∧
  ∃ ic, j.find "icon" = some ic ∧ iconFieldsPresent ic

/-- All required fields of the `InfoResponse` schema are present,
recursively including the nested team object's. -/
def infoFieldsPresent (j : Json) : Prop :=
  ∃ t, j.find "team" = some t ∧ teamFieldsPresent t

/-- All required fields of the `AccessLogsResponse` schema are present,
recursively including those of every entry of the `logins` array and of the
`paging` object. -/
def accessLogsFieldsPresent (j : Json) : Prop :=
  (∃ l, j.find "logins" = some (Json.arr l) ∧ ∀ x ∈ l, loginFieldsPresent x) ∧
  ∃ pj, j.find "paging" = some pj ∧ paginationFieldsPresent pj

/-- Modelled from the spec: the three-way error taxonomy of the parent module
(absent from the source excerpt): a transport error propagated from the
sender, an API error carrying the server's `err` string, and a decode
error for bodies that are not valid JSON or do not match the schema. -/
inductive Error where
  | Transport (e : String) : Error
  | Api (msg : String) : Error
  | Decode (msg : String) : Error
deriving DecidableEq

/-- Modelled from the spec: the result type of every endpoint call. -/
abbrev ApiResult (α : Type) : Type := Except Error α

/-- Modelled from the spec: a raw response body, represented by its parsed
JSON value; `none` stands for body text that is not valid JSON. -/
abbrev Body : Type := Option Json

/-- Modelled from the spec: the response envelope decoder
`parse_slack_response` of the parent module (absent from the source
excerpt).  Parse the body as JSON (failure is a decode error), then inspect
the `ok` field: on `true`, decode the payload with the endpoint's schema
when one is expected (schema failure is a decode error), or succeed with no
data when none is; on `false`, fail with an API error carrying the `err`
string. -/
def parse_slack_response {α : Type} (dec : Json → Except String α)
    (body : Body) (expectPayload : Bool) : Except Error (Option α) :=
  match body with
  | none => .error (.Decode "invalid json")
  | some j =>
    match j.find "ok" with
    | some (.bool true) =>
      if expectPayload then
        match dec j with
        | .ok v => .ok (some v)
        | .error m => .error (.Decode m)
      else .ok none
    | some (.bool false) =>
      match j.find "err" with
      | some (.str e) => .error (.Api e)
      | _ => .error (.Api "")
    | _ => .error (.Decode "ok")

/-- Modelled from the spec: the transport collaborator.  `send_authed` takes
a method name, an auth token and the parameter mapping, and returns the raw
response body or a transport error.  The monad parameter lets a sender be
instrumented, for example to log the invocations it receives. -/
structure SlackWebRequestSender (m : Type → Type) where
  send_authed : String → String → List (String × String) → m (Except String Body)

/-- Insertion into the parameter mapping with `HashMap.insert` semantics:
replace the value when the key is already present, otherwise add the
binding. -/
def hmInsert (ps : List (String × String)) (k v : String) : List (String × String) :=
  if ps.any fun p => p.1 == k then ps.map fun p => if p.1 == k then (k, v) else p
  else ps.concat (k, v)

/-- Lookup in the parameter mapping. -/
def hmLookup (ps : List (String × String)) (k : String) : Option String :=
  match ps.find? fun p => p.1 == k with
  | some p => some p.2
  | none => none

/-- The parameter mapping built by `access_logs` (source lines 26 to 34):
stringify the optional `count` and `page` arguments and insert only the
present ones. -/
def access_logs_params (count : Option Nat) (page : Option Nat) :
    List (String × String) :=
  let countStr := count.map fun c => toString c
  let pageStr := page.map fun p => toString p
  let params : List (String × String) := []
  let params :=
    match countStr with
    | some c => hmInsert params "count" c
    | none => params
  let params :=
    match pageStr with
    | some p => hmInsert params "page" p
    | none => params
  params

/-- Gets the access logs for the current team (wraps `team.accessLogs`):
builds the parameter mapping, sends the method with the token over the
transport, and parses the response envelope with the `AccessLogsResponse`
schema, expecting a payload. -/
def access_logs (m : Type → Type) [Monad m] (client : SlackWebRequestSender m)
    (token : String) (count : Option Nat) (page : Option Nat) :
    m (ApiResult AccessLogsResponse) := do
  let response ← client.send_authed "team.accessLogs" token (access_logs_params count page)
  match response with
  | .error e => return .error (.Transport e)
  | .ok body =>
    match parse_slack_response decodeAccessLogsResponse body true with
    | .ok (some v) => return .ok v
    | .ok none => return .error (.Decode "payload")
    | .error err => return .error err

/-- Gets information about the current team (wraps `team.info`): sends the
method with an empty parameter mapping and parses the response envelope
with the `InfoResponse` schema, expecting a payload. -/
def info (m : Type → Type) [Monad m] (client : SlackWebRequestSender m)
    (token : String) : m (ApiResult InfoResponse) := do
  let response ← client.send_authed "team.info" token []
  match response with
  | .error e => return .error (.Transport e)
  | .ok body =>
    match parse_slack_response decodeInfoResponse body true with
    | .ok (some v) => return .ok v
    | .ok none => return .error (.Decode "payload")
    | .error err => return .error err

/-- A pure transport whose response depends only on the call it is handed. -/
def pureClient (f : String → String → List (String × String) → Except String Body) :
    SlackWebRequestSender Id :=
  ⟨fun method token params => f method token params⟩

/-- A transport that answers every call with one fixed response. -/
def constClient (r : Except String Body) : SlackWebRequestSender Id :=
  ⟨fun _ _ _ => r⟩

/-- One recorded transport invocation: method name, token, parameter mapping. -/
abbrev Call : Type := String × String × List (String × String)

/-- A transport that answers with `f` and appends every invocation it
receives to a trace. -/
def spyClient (f : String → String → List (String × String) → Except String Body) :
    SlackWebRequestSender (StateM (List Call)) :=
  ⟨fun method token params => fun tr => (f method token params, tr ++ [(method, token, params)])⟩

/-- A pure transport lifted into the state monad without touching the state;
any state change observed around a call would be the endpoint's own. -/
def liftClient (f : String → String → List (String × String) → Except String Body) :
    SlackWebRequestSender (StateM (List Call)) :=
  ⟨fun method token params => fun tr => (f method token params, tr)⟩

/-- First login entry of the module's `team.accessLogs` test body. -/
def bobJson : Json :=
  Json.obj
    [("user_id", Json.str "U12345"),
     ("username", Json.str "bob"),
     ("date_first", Json.num 1422922864),
     ("date_last", Json.num 1422922864),
     ("count", Json.num 1),
     ("ip", Json.str "127.0.0.1"),
     ("user_agent", Json.str "SlackWeb Mozilla/5.0 (Macintosh; Intel Mac OS X 10_10_2) AppleWebKit/537.36 (KHTML, like Gecko) Chrome/41.0.2272.35 Safari/537.36"),
     ("isp", Json.str "BigCo ISP"),
     ("country", Json.str "US"),
     ("region", Json.str "CA")]

/-- Second login entry of the module's `team.accessLogs` test body. -/
def aliceJson : Json :=
  Json.obj
    [("user_id", Json.str "U45678"),
     ("username", Json.str "alice"),
     ("date_first", Json.num 1422922493),
     ("date_last", Json.num 1422922493),
     ("count", Json.num 1),
     ("ip", Json.str "127.0.0.1"),
     ("user_agent", Json.str "SlackWeb Mozilla/5.0 (iPhone; CPU iPhone OS 8_1_3 like Mac OS X) AppleWebKit/600.1.4 (KHTML, like Gecko) Version/8.0 Mobile/12B466 Safari/600.1.4"),
     ("isp", Json.str "BigCo ISP"),
     ("country", Json.str "US"),
     ("region", Json.str "CA")]

/-- The login record the first test entry decodes to. -/
def bobLogin : LoginInfo :=
  ⟨"U12345", "bob", 1422922864, 1422922864, 1, "127.0.0.1",
   "SlackWeb Mozilla/5.0 (Macintosh; Intel Mac OS X 10_10_2) AppleWebKit/537.36 (KHTML, like Gecko) Chrome/41.0.2272.35 Safari/537.36",
   "BigCo ISP", "US", "CA"⟩

/-- The login record the second test entry decodes to. -/
def aliceLogin : LoginInfo :=
  ⟨"U45678", "alice", 1422922493, 1422922493, 1, "127.0.0.1",
   "SlackWeb Mozilla/5.0 (iPhone; CPU iPhone OS 8_1_3 like Mac OS X) AppleWebKit/600.1.4 (KHTML, like Gecko) Version/8.0 Mobile/12B466 Safari/600.1.4",
   "BigCo ISP", "US", "CA"⟩

/-- The full success body of the module's `team.accessLogs` test, with the
login entries in the order [bob, alice]. -/
def accessLogsOkBody : Json :=
  Json.obj
    [("ok", Json.bool true),
     ("logins", Json.arr [bobJson, aliceJson]),
     ("paging", Json.obj
       [("count", Json.num 100),
        ("total", Json.num 2),
        ("page", Json.num 1),
        ("pages", Json.num 1)])]

/-- The success body of the module's `team.info` test. -/
def teamInfoOkBody : Json :=
  Json.obj
    [("ok", Json.bool true),
     ("team", Json.obj
       [("id", Json.str "T12345"),
        ("name", Json.str "My Team"),
        ("domain", Json.str "example"),
        ("email_domain", Json.str ""),
        ("icon", Json.obj
          [("image_34", Json.str "https://..."),
           ("image_44", Json.str "https://..."),
           ("image_68", Json.str "https://..."),
           ("image_88", Json.str "https://..."),
           ("image_102", Json.str "https://..."),
           ("image_132", Json.str "https://..."),
           ("image_default", Json.bool true)])])]

/-- The `team.info` test body with the required `id` field removed from the
team object. -/
def infoBodyMissingId : Json :=
  Json.obj
    [("ok", Json.bool true),
     ("team", Json.obj
       [("name", Json.str "My Team"),
        ("domain", Json.str "example"),
        ("email_domain", Json.str "")])]

/-- Modelled from the spec: one step of the decimal parser on the receiving
side of the wire; accumulates the value of the digits read so far and
rejects any non-digit character. -/
def parseDigitsAux (acc : Nat) : List Char → Option Nat
  | [] => some acc
  | c :: cs => if c.isDigit then parseDigitsAux (acc * 10 + (c.toNat - 48)) cs else none

/-- Modelled from the spec: the decimal parser on the other side of the
wire; a non-empty all-digit string parses to its decimal value. -/
def parseDecimal (s : String) : Option Nat :=
  match s.data with
  | [] => none
  | c :: cs => parseDigitsAux 0 (c :: cs)

/-- Decimal digit characters of a natural number, most significant first; a
structurally recursive reference for `Nat.toDigits 10`. -/
def decimalDigits (n : Nat) : List Char :=
  if n < 10 then [Nat.digitChar n]
  else decimalDigits (n / 10) ++ [Nat.digitChar (n % 10)]
termination_by n
decreasing_by simp_wf; omega

/-- Running `access_logs` against a pure transport reduces to one call of
the transport followed by envelope parsing. -/
lemma access_logs_pure_eq
    (f : String → String → List (String × String) → Except String Body)
    (token : String) (count page : Option Nat) :
    access_logs Id (pureClient f) token count page =
      match f "team.accessLogs" token (access_logs_params count page) with
      | .error e => .error (.Transport e)
      | .ok body =>
        match parse_slack_response decodeAccessLogsResponse body true with
        | .ok (some v) => .ok v
        | .ok none => .error (.Decode "payload")
        | .error err => .error err := rfl

/-- Running `info` against a pure transport reduces to one call of the
transport followed by envelope parsing. -/
lemma info_pure_eq
    (f : String → String → List (String × String) → Except String Body)
    (token : String) :
    info Id (pureClient f) token =
      match f "team.info" token [] with
      | .error e => .error (.Transport e)
      | .ok body =>
        match parse_slack_response decodeInfoResponse body true with
        | .ok (some v) => .ok v
        | .ok none => .error (.Decode "payload")
        | .error err => .error err := rfl

/-- A constant transport behaves like the pure transport ignoring the call. -/
lemma constClient_eq (r : Except String Body) :
    constClient r = pureClient fun _ _ _ => r := rfl

/-- Digit characters below ten are decimal digits and parse back to their
value. -/
lemma digit_char_ok : ∀ d : Nat, d < 10 →
    (Nat.digitChar d).isDigit = true ∧ (Nat.digitChar d).toNat - 48 = d := by
  decide

/-- With enough fuel, the fuelled digit printer of the core library agrees
with the structural `decimalDigits`. -/
lemma toDigitsCore_eq_decimalDigits :
    ∀ (fuel n : Nat) (ds : List Char), n < fuel →
      Nat.toDigitsCore 10 fuel n ds = decimalDigits n ++ ds := by
  intro fuel
  induction fuel with
  | zero => intro n ds h; omega
  | succ fuel ih =>
    intro n ds h
    rw [Nat.toDigitsCore]
    by_cases hn : n / 10 = 0
    · have hlt : n < 10 := by omega
      simp only [hn, if_pos, reduceIte]
      rw [decimalDigits, if_pos hlt, Nat.mod_eq_of_lt hlt]
      rfl
    · simp only [hn, reduceIte]
      rw [ih (n / 10) _ (by omega)]
      conv_rhs => rw [decimalDigits]
      rw [if_neg (show ¬ n < 10 by omega)]
      simp

/-- The decimal digits printed for a number are the structural ones. -/
lemma toDigits_eq_decimalDigits (n : Nat) :
    Nat.toDigits 10 n = decimalDigits n := by
  rw [Nat.toDigits, toDigitsCore_eq_decimalDigits (n + 1) n [] (by omega)]
  simp

/-- A number always prints to at least one digit character. -/
lemma decimalDigits_ne_nil (n : Nat) : decimalDigits n ≠ [] := by
  rw [decimalDigits]
  split <;> simp

/-- Parsing the printed digits of `n` in front of any remaining input folds
`n` into the accumulator. -/
lemma parse_decimalDigits_append :
    ∀ (n acc : Nat) (rest : List Char),
      parseDigitsAux acc (decimalDigits n ++ rest) =
        parseDigitsAux (acc * 10 ^ (decimalDigits n).length + n) rest := by
  intro n
  induction n using Nat.strong_induction_on with
  | _ n ih =>
    intro acc rest
    by_cases h : n < 10
    · obtain ⟨hd, hv⟩ := digit_char_ok n h
      rw [decimalDigits, if_pos h]
      simp [parseDigitsAux, hd, hv]
    · rw [decimalDigits, if_neg h]
      rw [List.append_assoc, List.singleton_append]
      rw [ih (n / 10) (by omega) acc (Nat.digitChar (n % 10) :: rest)]
      obtain ⟨hd, hv⟩ := digit_char_ok (n % 10) (Nat.mod_lt n (by omega))
      simp only [parseDigitsAux, hd, if_pos, reduceIte, hv, List.length_append,
        List.length_singleton]
      congr 1
      rw [pow_succ, ← Nat.mul_assoc]
      generalize acc * 10 ^ (decimalDigits (n / 10)).length = A
      omega

/-- Round trip: the decimal parser recovers every natural number from its
`toString` image. -/
lemma parse_toString_nat (n : Nat) : parseDecimal (toString n) = some n := by
  have hne := decimalDigits_ne_nil n
  have hparse := parse_decimalDigits_append n 0 []
  rw [List.append_nil] at hparse
  simp only [parseDigitsAux, Nat.zero_mul, Nat.zero_add] at hparse
  show parseDecimal (List.asString (Nat.toDigits 10 n)) = some n
  rw [toDigits_eq_decimalDigits]
  rcases hdd : decimalDigits n with _ | ⟨c, cs⟩
  · exact absurd hdd hne
  · have hred : parseDecimal (List.asString (c :: cs)) = parseDigitsAux 0 (c :: cs) := rfl
    rw [hred, ← hdd, hparse]

/-- Running `access_logs` against any pure (`Id`) transport reduces to one
call of the transport followed by envelope parsing. -/
lemma access_logs_id_eq (client : SlackWebRequestSender Id)
    (token : String) (count page : Option Nat) :
    access_logs Id client token count page =
      match client.send_authed "team.accessLogs" token (access_logs_params count page) with
      | .error e => .error (.Transport e)
      | .ok body =>
        match parse_slack_response decodeAccessLogsResponse body true with
        | .ok (some v) => .ok v
        | .ok none => .error (.Decode "payload")
        | .error err => .error err := rfl

/-- Running `info` against any pure (`Id`) transport reduces to one call of
the transport followed by envelope parsing. -/
lemma info_id_eq (client : SlackWebRequestSender Id) (token : String) :
    info Id client token =
      match client.send_authed "team.info" token [] with
      | .error e => .error (.Transport e)
      | .ok body =>
        match parse_slack_response decodeInfoResponse body true with
        | .ok (some v) => .ok v
        | .ok none => .error (.Decode "payload")
        | .error err => .error err := rfl

/-- Running `access_logs` against the logging transport produces the same
result as the pure run and appends exactly one invocation to the trace. -/
lemma access_logs_spy_eq
    (f : String → String → List (String × String) → Except String Body)
    (token : String) (count page : Option Nat) (tr : List Call) :
    (access_logs (StateM (List Call)) (spyClient f) token count page).run tr =
      (access_logs Id (pureClient f) token count page,
       tr ++ [("team.accessLogs", token, access_logs_params count page)]) := by
  rcases hf : f "team.accessLogs" token (access_logs_params count page) with e | body
  · simp [access_logs, spyClient, pureClient, StateT.run, bind, StateT.bind,
      pure, StateT.pure, hf]
  · rcases hp : parse_slack_response decodeAccessLogsResponse body true with e | v
    · simp [access_logs, spyClient, pureClient, StateT.run, bind, StateT.bind,
        pure, StateT.pure, hf, hp]
    · rcases v with _ | v <;>
        simp [access_logs, spyClient, pureClient, StateT.run, bind, StateT.bind,
          pure, StateT.pure, hf, hp]

/-- Running `info` against the logging transport produces the same result as
the pure run and appends exactly one invocation to the trace. -/
lemma info_spy_eq
    (f : String → String → List (String × String) → Except String Body)
    (token : String) (tr : List Call) :
    (info (StateM (List Call)) (spyClient f) token).run tr =
      (info Id (pureClient f) token, tr ++ [("team.info", token, [])]) := by
  rcases hf : f "team.info" token [] with e | body
  · simp [info, spyClient, pureClient, StateT.run, bind, StateT.bind,
      pure, StateT.pure, hf]
  · rcases hp : parse_slack_response decodeInfoResponse body true with e | v
    · simp [info, spyClient, pureClient, StateT.run, bind, StateT.bind,
        pure, StateT.pure, hf, hp]
    · rcases v with _ | v <;>
        simp [info, spyClient, pureClient, StateT.run, bind, StateT.bind,
          pure, StateT.pure, hf, hp]

/-- Running `access_logs` against a lifted pure transport leaves the state
untouched: the function itself reads and mutates no state. -/
lemma access_logs_lift_eq
    (f : String → String → List (String × String) → Except String Body)
    (token : String) (count page : Option Nat) (tr : List Call) :
    (access_logs (StateM (List Call)) (liftClient f) token count page).run tr =
      (access_logs Id (pureClient f) token count page, tr) := by
  rcases hf : f "team.accessLogs" token (access_logs_params count page) with e | body
  · simp [access_logs, liftClient, pureClient, StateT.run, bind, StateT.bind,
      pure, StateT.pure, hf]
  · rcases hp : parse_slack_response decodeAccessLogsResponse body true with e | v
    · simp [access_logs, liftClient, pureClient, StateT.run, bind, StateT.bind,
        pure, StateT.pure, hf, hp]
    · rcases v with _ | v <;>
        simp [access_logs, liftClient, pureClient, StateT.run, bind, StateT.bind,
          pure, StateT.pure, hf, hp]

/-- Running `info` against a lifted pure transport leaves the state
untouched: the function itself reads and mutates no state. -/
lemma info_lift_eq
    (f : String → String → List (String × String) → Except String Body)
    (token : String) (tr : List Call) :
    (info (StateM (List Call)) (liftClient f) token).run tr =
      (info Id (pureClient f) token, tr) := by
  rcases hf : f "team.info" token [] with e | body
  · simp [info, liftClient, pureClient, StateT.run, bind, StateT.bind,
      pure, StateT.pure, hf]
  · rcases hp : parse_slack_response decodeInfoResponse body true with e | v
    · simp [info, liftClient, pureClient, StateT.run, bind, StateT.bind,
        pure, StateT.pure, hf, hp]
    · rcases v with _ | v <;>
        simp [info, liftClient, pureClient, StateT.run, bind, StateT.bind,
          pure, StateT.pure, hf, hp]

/-- A successful `Except` bind means the first action succeeded and its
value made the continuation succeed. -/
lemma except_bind_ok {ε α β : Type} {x : Except ε α} {f : α → Except ε β} {b : β}
    (h : x >>= f = Except.ok b) : ∃ a, x = Except.ok a ∧ f a = Except.ok b := by
  rcases x with e | a
  · exact Except.noConfusion h
  · exact ⟨a, rfl, h⟩

/-- A successful `Except` map means the underlying action succeeded. -/
lemma except_map_ok {ε α β : Type} {f : α → β} {x : Except ε α} {b : β}
    (h : f <$> x = Except.ok b) : ∃ a, x = Except.ok a ∧ f a = b := by
  rcases x with e | a
  · exact Except.noConfusion h
  · exact ⟨a, rfl, Except.ok.inj h⟩

/-- A string field that decoded successfully was present in the body. -/
lemma getStr_ok_present {j : Json} {k s : String} (h : getStr j k = Except.ok s) :
    j.find k ≠ none := by
  intro hn; rw [getStr, hn] at h; exact Except.noConfusion h

/-- An integer field that decoded successfully was present in the body. -/
lemma getU32_ok_present {j : Json} {k : String} {n : Nat}
    (h : getU32 j k = Except.ok n) : j.find k ≠ none := by
  intro hn; rw [getU32, hn] at h; exact Except.noConfusion h

/-- A boolean field that decoded successfully was present in the body. -/
lemma getBool_ok_present {j : Json} {k : String} {b : Bool}
    (h : getBool j k = Except.ok b) : j.find k ≠ none := by
  intro hn; rw [getBool, hn] at h; exact Except.noConfusion h

/-- A sub-object extracted successfully is the value of its field. -/
lemma getField_ok_eq {j t : Json} {k : String} (h : getField j k = Except.ok t) :
    j.find k = some t := by
  rcases hf : j.find k with _ | v
  · rw [getField, hf] at h; exact Except.noConfusion h
  · rw [getField, hf] at h; rw [Except.ok.inj h]

/-- A login record decodes successfully only from a body carrying all ten
required fields. -/
lemma decodeLoginInfo_ok_present {j : Json} {r : LoginInfo}
    (h : decodeLoginInfo j = Except.ok r) : loginFieldsPresent j := by
  rw [decodeLoginInfo] at h
  obtain ⟨a1, h1, h⟩ := except_bind_ok h
  obtain ⟨a2, h2, h⟩ := except_bind_ok h
  obtain ⟨a3, h3, h⟩ := except_bind_ok h
  obtain ⟨a4, h4, h⟩ := except_bind_ok h
  obtain ⟨a5, h5, h⟩ := except_bind_ok h
  obtain ⟨a6, h6, h⟩ := except_bind_ok h
  obtain ⟨a7, h7, h⟩ := except_bind_ok h
  obtain ⟨a8, h8, h⟩ := except_bind_ok h
  obtain ⟨a9, h9, h⟩ := except_bind_ok h
  obtain ⟨a10, h10, _⟩ := except_map_ok h
  exact ⟨getStr_ok_present h1, getStr_ok_present h2, getU32_ok_present h3,
    getU32_ok_present h4, getU32_ok_present h5, getStr_ok_present h6,
    getStr_ok_present h7, getStr_ok_present h8, getStr_ok_present h9,
    getStr_ok_present h10⟩

/-- Pagination decodes successfully only from a body carrying all four
required fields. -/
lemma decodePagination_ok_present {j : Json} {r : Pagination}
    (h : decodePagination j = Except.ok r) : paginationFieldsPresent j := by
  rw [decodePagination] at h
  obtain ⟨a1, h1, h⟩ := except_bind_ok h
  obtain ⟨a2, h2, h⟩ := except_bind_ok h
  obtain ⟨a3, h3, h⟩ := except_bind_ok h
  obtain ⟨a4, h4, _⟩ := except_map_ok h
  exact ⟨getU32_ok_present h1, getU32_ok_present h2, getU32_ok_present h3,
    getU32_ok_present h4⟩

/-- An icon record decodes successfully only from a body carrying all seven
required fields. -/
lemma decodeIconInfo_ok_present {j : Json} {r : IconInfo}
    (h : decodeIconInfo j = Except.ok r) : iconFieldsPresent j := by
  rw [decodeIconInfo] at h
  obtain ⟨a1, h1, h⟩ := except_bind_ok h
  obtain ⟨a2, h2, h⟩ := except_bind_ok h
  obtain ⟨a3, h3, h⟩ := except_bind_ok h
  obtain ⟨a4, h4, h⟩ := except_bind_ok h
  obtain ⟨a5, h5, h⟩ := except_bind_ok h
  obtain ⟨a6, h6, h⟩ := except_bind_ok h
  obtain ⟨a7, h7, _⟩ := except_map_ok h
  exact ⟨getStr_ok_present h1, getStr_ok_present h2, getStr_ok_present h3,
    getStr_ok_present h4, getStr_ok_present h5, getStr_ok_present h6,
    getBool_ok_present h7⟩

/-- A team record decodes successfully only from a body carrying all five
required fields, the nested icon object complete. -/
lemma decodeTeamInfo_ok_present {j : Json} {r : TeamInfo}
    (h : decodeTeamInfo j = Except.ok r) : teamFieldsPresent j := by
  rw [decodeTeamInfo] at h
  obtain ⟨a1, h1, h⟩ := except_bind_ok h
  obtain ⟨a2, h2, h⟩ := except_bind_ok h
  obtain ⟨a3, h3, h⟩ := except_bind_ok h
  obtain ⟨a4, h4, h⟩ := except_bind_ok h
  obtain ⟨ic, h5, h⟩ := except_bind_ok h
  obtain ⟨iv, h6, _⟩ := except_map_ok h
  exact ⟨getStr_ok_present h1, getStr_ok_present h2, getStr_ok_present h3,
    getStr_ok_present h4, ic, getField_ok_eq h5, decodeIconInfo_ok_present h6⟩

/-- An `info` payload decodes successfully only from a body whose `team`
object is present and complete. -/
lemma decodeInfoResponse_ok_present {j : Json} {r : InfoResponse}
    (h : decodeInfoResponse j = Except.ok r) : infoFieldsPresent j := by
  rw [decodeInfoResponse] at h
  obtain ⟨t, h1, h⟩ := except_bind_ok h
  obtain ⟨tv, h2, _⟩ := except_map_ok h
  exact ⟨t, getField_ok_eq h1, decodeTeamInfo_ok_present h2⟩

/-- A successful `mapM` over `Except` means every element decoded. -/
lemma mapM_ok_forall {α β : Type} {f : α → Except String β} :
    ∀ {l : List α} {out : List β}, l.mapM f = Except.ok out →
      ∀ x ∈ l, ∃ y, f x = Except.ok y := by
  intro l
  induction l with
  | nil => intro out h x hx; exact absurd hx (List.not_mem_nil x)
  | cons a as ih =>
    intro out h x hx
    rw [List.mapM_cons] at h
    obtain ⟨b, hb, h⟩ := except_bind_ok h
    obtain ⟨bs, hbs, _⟩ := except_bind_ok h
    rcases List.mem_cons.mp hx with hx | hx
    · subst hx; exact ⟨b, hb⟩
    · exact ih hbs x hx

/-- An `access_logs` payload decodes successfully only from a body whose
`logins` array entries and `paging` object are present and complete. -/
lemma decodeAccessLogsResponse_ok_present {j : Json} {r : AccessLogsResponse}
    (h : decodeAccessLogsResponse j = Except.ok r) : accessLogsFieldsPresent j := by
  rw [decodeAccessLogsResponse] at h
  rcases hf : j.find "logins" with _ | v
  · rw [hf] at h; exact Except.noConfusion h
  · rcases v with _ | b | n | s | l2 | fs <;> rw [hf] at h
    · exact Except.noConfusion h
    · exact Except.noConfusion h
    · exact Except.noConfusion h
    · exact Except.noConfusion h
    · obtain ⟨l3, hl3, h⟩ := except_bind_ok h
      obtain ⟨out, hout, h⟩ := except_bind_ok h
      obtain ⟨pj, hpj, h⟩ := except_bind_ok h
      obtain ⟨pg, hpg, _⟩ := except_map_ok h
      have hll : l2 = l3 := Except.ok.inj hl3
      subst hll
      refine ⟨⟨l2, hf, ?_⟩,
        pj, getField_ok_eq hpj, decodePagination_ok_present hpg⟩
      intro x hx
      obtain ⟨y, hy⟩ := mapM_ok_forall hout x hx
      exact decodeLoginInfo_ok_present hy
    · exact Except.noConfusion h

/-- On an `ok: true` body the envelope decoder reduces to the payload
decoder. -/
lemma parse_ok_decode {α : Type} (dec : Json → Except String α) (j : Json)
    (hok : j.find "ok" = some (.bool true)) :
    parse_slack_response dec (some j) true =
      match dec j with
      | .ok v => Except.ok (some v)
      | .error m => Except.error (Error.Decode m) := by
  simp [parse_slack_response, hok]

/-- On an `ok: true` body, `access_logs` returns the payload decode, with
decoder failures surfaced as decode errors. -/
lemma access_logs_const_decode (j : Json) (token : String)
    (count page : Option Nat) (hok : j.find "ok" = some (.bool true)) :
    access_logs Id (constClient (.ok (some j))) token count page =
      match decodeAccessLogsResponse j with
      | .ok v => Except.ok v
      | .error m => Except.error (Error.Decode m) := by
  have h0 : access_logs Id (constClient (.ok (some j))) token count page =
      match parse_slack_response decodeAccessLogsResponse (some j) true with
      | .ok (some v) => Except.ok v
      | .ok none => Except.error (Error.Decode "payload")
      | .error err => Except.error err := rfl
  rw [h0, parse_ok_decode decodeAccessLogsResponse j hok]
  rcases hd : decodeAccessLogsResponse j with m | v <;> rfl

/-- On an `ok: true` body, `info` returns the payload decode, with decoder
failures surfaced as decode errors. -/
lemma info_const_decode (j : Json) (token : String)
    (hok : j.find "ok" = some (.bool true)) :
    info Id (constClient (.ok (some j))) token =
      match decodeInfoResponse j with
      | .ok v => Except.ok v
      | .error m => Except.error (Error.Decode m) := by
  have h0 : info Id (constClient (.ok (some j))) token =
      match parse_slack_response decodeInfoResponse (some j) true with
      | .ok (some v) => Except.ok v
      | .ok none => Except.error (Error.Decode "payload")
      | .error err => Except.error err := rfl
  rw [h0, parse_ok_decode decodeInfoResponse j hok]
  rcases hd : decodeInfoResponse j with m | v <;> rfl

/-- C1: for every response body of the form `ok: false` with an `err` string,
both `access_logs` and `info` return the API error carrying that string
exactly, whatever the token, the optional arguments and the rest of the
body's shape. -/
theorem c1_api_error_verbatim (j : Json) (msg token : String)
    (count page : Option Nat)
    (hok : j.find "ok" = some (.bool false))
    (herr : j.find "err" = some (.str msg)) :
    access_logs Id (constClient (.ok (some j))) token count page
        = Except.error (Error.Api msg) ∧
    info Id (constClient (.ok (some j))) token
        = Except.error (Error.Api msg) := by
  rw [constClient_eq, access_logs_pure_eq, info_pure_eq]
  simp only [parse_slack_response, hok, herr]
  exact ⟨trivial, trivial⟩

/-- Witness for C1 at the error body used by the module's own test. -/
theorem c1_api_error_verbatim_witness :
    access_logs Id
        (constClient (.ok (some (Json.obj
          [("ok", Json.bool false), ("err", Json.str "some_error")]))))
        "TEST_TOKEN" none none
      = Except.error (Error.Api "some_error") ∧
    info Id
        (constClient (.ok (some (Json.obj
          [("ok", Json.bool false), ("err", Json.str "some_error")]))))
        "TEST_TOKEN"
      = Except.error (Error.Api "some_error") :=
  c1_api_error_verbatim _ "some_error" "TEST_TOKEN" none none rfl rfl

/-- C2: the parameter mapping built by `access_logs` holds the key `count`
exactly when the `count` argument is present (bound to its decimal string),
likewise for `page`, and holds nothing else; with both arguments absent it
is empty. -/
theorem c2_params_exactly_present_args (count page : Option Nat) :
    (∀ k v, (k, v) ∈ access_logs_params count page ↔
      (k = "count" ∧ count.map (fun c => toString c) = some v) ∨
      (k = "page" ∧ page.map (fun p => toString p) = some v)) ∧
    access_logs_params none none = [] := by
  refine ⟨fun k v => ?_, rfl⟩
  cases count <;> cases page <;>
    simp [access_logs_params, hmInsert, Prod.ext_iff, eq_comm]

/-- C5: when the transport's `send_authed` fails, both `access_logs` and
`info` return that transport error unchanged. -/
theorem c5_transport_error_propagated
    (f : String → String → List (String × String) → Except String Body)
    (token : String) (count page : Option Nat) (e : String)
    (hac : f "team.accessLogs" token (access_logs_params count page)
        = .error e)
    (hin : f "team.info" token [] = .error e) :
    access_logs Id (pureClient f) token count page
        = Except.error (Error.Transport e) ∧
    info Id (pureClient f) token = Except.error (Error.Transport e) := by
  rw [access_logs_pure_eq, info_pure_eq, hac, hin]
  exact ⟨rfl, rfl⟩

/-- Witness for C5 at a transport that always fails with the error `boom`. -/
theorem c5_transport_error_propagated_witness :
    access_logs Id (pureClient fun _ _ _ => Except.error "boom") "t" none none
        = Except.error (Error.Transport "boom") ∧
    info Id (pureClient fun _ _ _ => Except.error "boom") "t"
        = Except.error (Error.Transport "boom") :=
  c5_transport_error_propagated _ "t" none none "boom" rfl rfl

/-- C3: every call to `access_logs` or `info` yields exactly one of the four
outcomes: a fully typed result, a decode error, an API error or a transport
error; the four are mutually exclusive because the result is a single
`Except` value and the three error constructors are distinct. -/
theorem c3_exactly_one_outcome (client : SlackWebRequestSender Id)
    (token : String) (count page : Option Nat) :
    ((∃ v, access_logs Id client token count page = Except.ok v) ∨
     (∃ m, access_logs Id client token count page = Except.error (Error.Decode m)) ∨
     (∃ m, access_logs Id client token count page = Except.error (Error.Api m)) ∨
     (∃ e, access_logs Id client token count page = Except.error (Error.Transport e))) ∧
    ((∃ v, info Id client token = Except.ok v) ∨
     (∃ m, info Id client token = Except.error (Error.Decode m)) ∨
     (∃ m, info Id client token = Except.error (Error.Api m)) ∨
     (∃ e, info Id client token = Except.error (Error.Transport e))) ∧
    (∀ (v : AccessLogsResponse) (er : Error),
      (Except.ok v : ApiResult AccessLogsResponse) ≠ Except.error er) ∧
    (∀ m₁ m₂ : String, Error.Api m₁ ≠ Error.Decode m₂ ∧
      Error.Api m₁ ≠ Error.Transport m₂ ∧ Error.Decode m₁ ≠ Error.Transport m₂) := by
  refine ⟨?_, ?_, by simp, by simp⟩
  · rcases hf : client.send_authed "team.accessLogs" token (access_logs_params count page)
      with e | body
    · refine Or.inr (Or.inr (Or.inr ⟨e, ?_⟩))
      rw [access_logs_id_eq, hf]
    · rcases hp : parse_slack_response decodeAccessLogsResponse body true with er | v
      · rcases er with e2 | m | m
        · refine Or.inr (Or.inr (Or.inr ⟨e2, ?_⟩))
          rw [access_logs_id_eq, hf]; simp [hp]
        · refine Or.inr (Or.inr (Or.inl ⟨m, ?_⟩))
          rw [access_logs_id_eq, hf]; simp [hp]
        · refine Or.inr (Or.inl ⟨m, ?_⟩)
          rw [access_logs_id_eq, hf]; simp [hp]
      · rcases v with _ | v
        · refine Or.inr (Or.inl ⟨"payload", ?_⟩)
          rw [access_logs_id_eq, hf]; simp [hp]
        · refine Or.inl ⟨v, ?_⟩
          rw [access_logs_id_eq, hf]; simp [hp]
  · rcases hf : client.send_authed "team.info" token [] with e | body
    · refine Or.inr (Or.inr (Or.inr ⟨e, ?_⟩))
      rw [info_id_eq, hf]
    · rcases hp : parse_slack_response decodeInfoResponse body true with er | v
      · rcases er with e2 | m | m
        · refine Or.inr (Or.inr (Or.inr ⟨e2, ?_⟩))
          rw [info_id_eq, hf]; simp [hp]
        · refine Or.inr (Or.inr (Or.inl ⟨m, ?_⟩))
          rw [info_id_eq, hf]; simp [hp]
        · refine Or.inr (Or.inl ⟨m, ?_⟩)
          rw [info_id_eq, hf]; simp [hp]
      · rcases v with _ | v
        · refine Or.inr (Or.inl ⟨"payload", ?_⟩)
          rw [info_id_eq, hf]; simp [hp]
        · refine Or.inl ⟨v, ?_⟩
          rw [info_id_eq, hf]; simp [hp]

/-- C4: on every success body (`ok: true`), for either endpoint: a schema
decode failure — in particular a missing required field of the target
schema — surfaces as a decode error carrying the decoder's message; a call
can only return `ok` when every required field of its schema (nested
objects and array entries included) was present and the result is exactly
the schema decode, so no record is ever partially populated from defaulted
fields; and the call's outcome is always either `ok` or a decode error. -/
theorem c4_missing_required_field_decode_error (j : Json) (token : String)
    (count page : Option Nat)
    (hok : j.find "ok" = some (.bool true)) :
    (∀ m, decodeAccessLogsResponse j = Except.error m →
      access_logs Id (constClient (.ok (some j))) token count page
        = Except.error (Error.Decode m)) ∧
    (∀ m, decodeInfoResponse j = Except.error m →
      info Id (constClient (.ok (some j))) token
        = Except.error (Error.Decode m)) ∧
    (∀ r, access_logs Id (constClient (.ok (some j))) token count page
        = Except.ok r →
      accessLogsFieldsPresent j ∧ decodeAccessLogsResponse j = Except.ok r) ∧
    (∀ r, info Id (constClient (.ok (some j))) token = Except.ok r →
      infoFieldsPresent j ∧ decodeInfoResponse j = Except.ok r) ∧
    ((∃ r, access_logs Id (constClient (.ok (some j))) token count page
        = Except.ok r) ∨
     (∃ m, access_logs Id (constClient (.ok (some j))) token count page
        = Except.error (Error.Decode m))) ∧
    ((∃ r, info Id (constClient (.ok (some j))) token = Except.ok r) ∨
     (∃ m, info Id (constClient (.ok (some j))) token
        = Except.error (Error.Decode m))) := by
  refine ⟨?_, ?_, ?_, ?_, ?_, ?_⟩
  · intro m hm
    rw [access_logs_const_decode j token count page hok, hm]
  · intro m hm
    rw [info_const_decode j token hok, hm]
  · intro r hr
    rw [access_logs_const_decode j token count page hok] at hr
    rcases hd : decodeAccessLogsResponse j with m | v
    · rw [hd] at hr; exact Except.noConfusion hr
    · rw [hd] at hr
      rw [← Except.ok.inj hr]
      exact ⟨decodeAccessLogsResponse_ok_present hd, rfl⟩
  · intro r hr
    rw [info_const_decode j token hok] at hr
    rcases hd : decodeInfoResponse j with m | v
    · rw [hd] at hr; exact Except.noConfusion hr
    · rw [hd] at hr
      rw [← Except.ok.inj hr]
      exact ⟨decodeInfoResponse_ok_present hd, rfl⟩
  · rw [access_logs_const_decode j token count page hok]
    rcases hd : decodeAccessLogsResponse j with m | v
    · exact Or.inr ⟨m, rfl⟩
    · exact Or.inl ⟨v, rfl⟩
  · rw [info_const_decode j token hok]
    rcases hd : decodeInfoResponse j with m | v
    · exact Or.inr ⟨m, rfl⟩
    · exact Or.inl ⟨v, rfl⟩

/-- Witness for C4 at the module's own `team.info` test body with the
required `id` field removed: the call returns the decode error naming it. -/
theorem c4_missing_required_field_decode_error_witness :
    info Id (constClient (.ok (some infoBodyMissingId))) "TEST_TOKEN"
      = Except.error (Error.Decode "id") :=
  (c4_missing_required_field_decode_error infoBodyMissingId "TEST_TOKEN"
    none none rfl).2.1 "id" rfl

/-- C6: one run of `access_logs` invokes the transport exactly once, with
method name `team.accessLogs`, and one run of `info` invokes it exactly
once, with method name `team.info`: from any starting trace, exactly one
invocation is appended. -/
theorem c6_single_round_trip
    (f : String → String → List (String × String) → Except String Body)
    (token : String) (count page : Option Nat) (tr : List Call) :
    ((access_logs (StateM (List Call)) (spyClient f) token count page).run tr).2
        = tr ++ [("team.accessLogs", token, access_logs_params count page)] ∧
    ((info (StateM (List Call)) (spyClient f) token).run tr).2
        = tr ++ [("team.info", token, [])] := by
  rw [access_logs_spy_eq, info_spy_eq]
  exact ⟨rfl, rfl⟩

/-- C8: with `count = some 100` the parameter mapping binds the key `count`
to exactly the string `100`, whatever the `page` argument, and for every
number the decimal stringification sent on the wire is exact and
reversible: the receiving side's parser recovers the original value. -/
theorem c8_count_stringification_roundtrip (page : Option Nat) (n : Nat) :
    hmLookup (access_logs_params (some 100) page) "count" = some "100" ∧
    parseDecimal (toString n) = some n := by
  refine ⟨?_, parse_toString_nat n⟩
  cases page <;> rfl

/-- C10: the two endpoint functions are deterministic and stateless: their
result depends only on the transport's answer to the single call they make
(two transports agreeing there give identical results), and a run mutates
no state beyond the transport's own call (a state-passing run with a pure
transport returns the state unchanged). -/
theorem c10_deterministic_stateless
    (f g : String → String → List (String × String) → Except String Body)
    (token : String) (count page : Option Nat) (tr : List Call)
    (hac : f "team.accessLogs" token (access_logs_params count page)
        = g "team.accessLogs" token (access_logs_params count page))
    (hin : f "team.info" token [] = g "team.info" token []) :
    access_logs Id (pureClient f) token count page
        = access_logs Id (pureClient g) token count page ∧
    info Id (pureClient f) token = info Id (pureClient g) token ∧
    ((access_logs (StateM (List Call)) (liftClient f) token count page).run tr).2
        = tr ∧
    ((info (StateM (List Call)) (liftClient f) token).run tr).2 = tr := by
  refine ⟨?_, ?_, ?_, ?_⟩
  · rw [access_logs_pure_eq, access_logs_pure_eq, hac]
  · rw [info_pure_eq, info_pure_eq, hin]
  · rw [access_logs_lift_eq]
  · rw [info_lift_eq]

/-- C7: a well-formed `access_logs` success body whose `logins` array holds
two entries in the order [bob, alice] decodes to the list with bob at index
0 and alice at index 1: decoding neither reorders nor deduplicates. -/
theorem c7_order_preserved (j j1 j2 : Json) (bob alice : LoginInfo)
    (pj : Json) (pg : Pagination) (token : String) (count page : Option Nat)
    (hok : j.find "ok" = some (.bool true))
    (hlogins : j.find "logins" = some (.arr [j1, j2]))
    (h1 : decodeLoginInfo j1 = .ok bob)
    (h2 : decodeLoginInfo j2 = .ok alice)
    (hpj : j.find "paging" = some pj)
    (hpag : decodePagination pj = .ok pg) :
    access_logs Id (constClient (.ok (some j))) token count page
      = Except.ok ⟨[bob, alice], pg⟩ := by
  rw [constClient_eq, access_logs_pure_eq]
  simp [parse_slack_response, decodeAccessLogsResponse, getField,
    hok, hlogins, h1, h2, hpj, hpag, bind, Except.bind, pure, Except.pure,
    List.mapM, List.mapM.loop]

/-- Witness for C7 at the module's own `team.accessLogs` test body. -/
theorem c7_order_preserved_witness :
    access_logs Id (constClient (.ok (some accessLogsOkBody)))
        "TEST_TOKEN" none none
      = Except.ok ⟨[bobLogin, aliceLogin], ⟨100, 2, 1, 1⟩⟩ :=
  c7_order_preserved accessLogsOkBody bobJson aliceJson bobLogin aliceLogin
    _ ⟨100, 2, 1, 1⟩ "TEST_TOKEN" none none rfl rfl rfl rfl rfl rfl

/-- C9: `info` sends no parameters beyond authentication: for every token
the mapping handed to the transport is empty; and on success it returns the
single team-info record with id, name, domain, email domain and the nested
icon URL set. -/
theorem c9_info_empty_params_full_record
    (f : String → String → List (String × String) → Except String Body)
    (token : String) (tr : List Call) :
    ((info (StateM (List Call)) (spyClient f) token).run tr).2
        = tr ++ [("team.info", token, [])] ∧
    info Id (constClient (.ok (some teamInfoOkBody))) token
      = Except.ok ⟨⟨"T12345", "My Team", "example", "",
          ⟨"https://...", "https://...", "https://...", "https://...",
           "https://...", "https://...", true⟩⟩⟩ := by
  refine ⟨?_, rfl⟩
  rw [info_spy_eq]

/-- Witness for C10 at two syntactically distinct transports that agree on
the calls the endpoints make. -/
theorem c10_deterministic_stateless_witness :
    access_logs Id (pureClient fun _ _ _ => Except.error "e") "t" none none
        = access_logs Id
            (pureClient fun _ _ params =>
              if params.length < 3 then Except.error "e" else Except.ok none)
            "t" none none ∧
    info Id (pureClient fun _ _ _ => Except.error "e") "t"
        = info Id
            (pureClient fun _ _ params =>
              if params.length < 3 then Except.error "e" else Except.ok none)
            "t" ∧
    ((access_logs (StateM (List Call))
        (liftClient fun _ _ _ => Except.error "e") "t" none none).run []).2 = [] ∧
    ((info (StateM (List Call))
        (liftClient fun _ _ _ => Except.error "e") "t").run []).2 = [] :=
  c10_deterministic_stateless _ _ "t" none none [] rfl rfl

end Slack
